import Mathlib

/-!
Verification of `volatility.py` (romdr/cryptotools).

Shallow embedding of the volatility analysis tool.  Python floats are
modelled as exact rationals (`ℚ`); Python exceptions are modelled with
`Except PyError`.  Each definition mirrors one function or code block of
`src/volatility.py`.
-/

namespace Cryptotools

/-- The Python exceptions that the modelled code can raise:
`ValueError` (tuple-unpacking arity mismatch, `min`/`max` of an empty
sequence, `float()` on a non-numeric string), `ZeroDivisionError`
(division by zero) and `KeyError` (dict lookup miss). -/
inductive PyError where
  | valueError
  | zeroDivisionError
  | keyError
  deriving DecidableEq

/-- A raw wire-format field of a historical-kline record: the exchange
returns integers (timestamps, trade count) and numeric strings (prices,
volumes).  Mirrors the dynamic typing of the Python record elements. -/
inductive PyVal where
  | int (n : ℤ)
  | str (s : String)
  deriving DecidableEq

/-- Numeric value of a list of decimal digit characters (empty list = 0). -/
def digitsVal (l : List Char) : ℕ :=
  l.foldl (fun acc c => acc * 10 + c.toNat - '0'.toNat) 0

/-- Models Python `float(s)` on a plain decimal string literal: optional
sign, integer digits, optional fractional part (at least one digit overall).
Returns the exact rational value; `none` models the `ValueError` that
`float()` raises on a non-numeric string.  (Exponent forms and `inf`/`nan`,
which the exchange wire format never uses, are not modelled.) -/
def parseDecimal (s : String) : Option ℚ :=
  let core : List Char → Option ℚ := fun l =>
    let ip := l.takeWhile Char.isDigit
    let rest := l.dropWhile Char.isDigit
    match rest with
    | [] => if ip.isEmpty then none else some (digitsVal ip)
    | '.' :: fp =>
        if fp.all Char.isDigit ∧ ¬(ip.isEmpty ∧ fp.isEmpty) then
          some ((digitsVal ip : ℚ) + (digitsVal fp : ℚ) / (10 : ℚ) ^ fp.length)
        else none
    | _ => none
  match s.toList with
  | '-' :: l => (core l).map Neg.neg
  | '+' :: l => core l
  | l => core l

/-- Models the Python builtin `float(x)` as used in `Kline.__init__`:
an int converts exactly, a string is parsed as a decimal literal;
failure is a `ValueError`. -/
def pyFloat : PyVal → Except PyError ℚ
  | .int n => .ok (n : ℚ)
  | .str s =>
    match parseDecimal s with
    | some q => .ok q
    | none => .error .valueError

/-- Model of `Kline` (src/volatility.py:17-50): one candlestick bar.
The field `open` of the source is renamed `open_price` (`open` is a Lean
keyword); all other field names are kept.  The eight
price/volume fields are converted with `float()` at construction; `open_time`,
`close_time` and `trades` are kept exactly as they were unpacked from the
raw record (the Python code applies no conversion to them). -/
structure Kline where
  open_time : PyVal
  open_price : ℚ
  high : ℚ
  low : ℚ
  close : ℚ
  volume : ℚ
  close_time : PyVal
  quote_asset_volume : ℚ
  trades : PyVal
  taker_base_volume : ℚ
  taker_quote_volume : ℚ
  deriving DecidableEq

/-- Model of `Kline.__init__` (src/volatility.py:20-50): unpack the 12-element raw
record (a Python tuple-unpack, which raises `ValueError` on any other
arity, modelled by the catch-all branch), discard the 12th field, and
convert the eight price/volume fields with `float()`. -/
def Kline.parse (values : List PyVal) : Except PyError Kline :=
  match values with
  | [v_open_time, v_open, v_high, v_low, v_close, v_volume,
     v_close_time, v_qav, v_trades, v_tbv, v_tqv, _v_ignore] => do
    let o ← pyFloat v_open
    let h ← pyFloat v_high
    let l ← pyFloat v_low
    let c ← pyFloat v_close
    let v ← pyFloat v_volume
    let qav ← pyFloat v_qav
    let tbv ← pyFloat v_tbv
    let tqv ← pyFloat v_tqv
    .ok { open_time := v_open_time, open_price := o, high := h, low := l,
          close := c, volume := v, close_time := v_close_time,
          quote_asset_volume := qav, trades := v_trades,
          taker_base_volume := tbv, taker_quote_volume := tqv }
  | _ => .error .valueError

/-- The loop of `Volatility.hits_over_threshold` (src/volatility.py:114-128):
walk the bars carrying the running `count` and the `is_over_threshold` flag. -/
def hitsLoop (qualifies : ℚ → Bool) : ℕ → Bool → List Kline → ℕ
  | count, _, [] => count
  | count, isOver, k :: ks =>
    if qualifies k.close then
      if isOver then hitsLoop qualifies count true ks
      else hitsLoop qualifies (count + 1) true ks
    else hitsLoop qualifies count false ks

/-- Model of `Volatility.hits_over_threshold` (src/volatility.py:99-128): pick the
comparison (`>` when the signed threshold is positive, else `<`), compute
`close_threshold = avg_close * (1.0 + threshold)`, and count excursions. -/
def hits_over_threshold (avg_close threshold : ℚ) (klines : List Kline) : ℕ :=
  let comp_operator : ℚ → ℚ → Bool :=
    if threshold > 0 then (fun a b => a > b) else (fun a b => a < b)
  let close_threshold := avg_close * (1 + threshold)
  hitsLoop (fun c => comp_operator c close_threshold) 0 false klines

/-- Python `min(list)` (src/volatility.py:91): `ValueError` on an empty
sequence, otherwise the least element. -/
def pyMin : List ℚ → Except PyError ℚ
  | [] => .error .valueError
  | x :: xs => .ok (xs.foldl min x)

/-- Python `max(list)` (src/volatility.py:92). -/
def pyMax : List ℚ → Except PyError ℚ
  | [] => .error .valueError
  | x :: xs => .ok (xs.foldl max x)

/-- Python float division (src/volatility.py:93,133): `ZeroDivisionError`
on a zero divisor. -/
def pyDiv (a b : ℚ) : Except PyError ℚ :=
  if b = 0 then .error .zeroDivisionError else .ok (a / b)

/-- The hard-coded threshold ladder (src/volatility.py:84). -/
def volatility_thresholds : List ℚ :=
  [0.30, 0.25, 0.20, 0.15, 0.10, 0.05, 0.04, 0.03, 0.02, 0.01, 0.005, 0.0025]

/-- State of a `Volatility` object after `from_klines` finished populating it
(src/volatility.py:53-97).  The Python dicts `high_hits`/`low_hits`, built
by dict comprehensions over the ladder, are modelled as association lists
in insertion order. -/
structure Volatility where
  symbol : String
  interval : String
  thresholds : List ℚ
  min_close : ℚ
  max_close : ℚ
  avg_close : ℚ
  high_hits : List (ℚ × ℕ)
  low_hits : List (ℚ × ℕ)
  deriving DecidableEq

/-- Python `dict[key]` on the modelled association lists: `KeyError` when
the key is absent. -/
def dictGet (d : List (ℚ × ℕ)) (key : ℚ) : Except PyError ℕ :=
  match d with
  | [] => .error .keyError
  | p :: rest => if p.1 = key then .ok p.2 else dictGet rest key

/-- Model of `Volatility.from_klines` (src/volatility.py:80-97): extract the closes,
take `min`, `max` and the mean (in that order, so an empty sequence fails
at `min` first), then build both hit dictionaries over the ladder. -/
def from_klines (symbol interval : String) (klines : List Kline) :
    Except PyError Volatility := do
  let closes := klines.map Kline.close
  let mn ← pyMin closes
  let mx ← pyMax closes
  let avg ← pyDiv closes.sum (closes.length : ℚ)
  .ok { symbol := symbol, interval := interval,
        thresholds := volatility_thresholds,
        min_close := mn, max_close := mx, avg_close := avg,
        high_hits := volatility_thresholds.map
          (fun t => (t, hits_over_threshold avg t klines)),
        low_hits := volatility_thresholds.map
          (fun t => (t, hits_over_threshold avg (-t) klines)) }

/-- Specification-side count of maximal qualifying runs: a bar starts a new
run exactly when it qualifies and its predecessor (or the start of the
sequence) does not, and each maximal contiguous run of qualifying bars has
exactly one such starting bar, so this counts every distinct maximal run
once regardless of its length. -/
def specRunCount (qualifies : ℚ → Bool) (closes : List ℚ) : ℕ :=
  (((false :: closes.map qualifies).zip (closes.map qualifies)).filter
    (fun pc => pc.2 && !pc.1)).length

/-- Left-pad a string with `'0'` to the given width (used for the digits
after the decimal point). -/
def padZeros (s : String) (w : ℕ) : String :=
  String.mk (List.replicate (w - s.length) '0') ++ s

/-- Left-pad a string with `' '` to the given width (Python's
right-justified fixed-width fields). -/
def padSpaces (s : String) (w : ℕ) : String :=
  String.mk (List.replicate (w - s.length) ' ') ++ s

/-- Fixed-point decimal rendering of a rational with `prec` digits after
the point, rounding to the nearest `10 ^ prec`-th (models the decimal
output of the Python fixed-format conversions on our exact-rational float
model; at-a-tie behaviour and negative zero never arise in the claims). -/
def fmtFixed (prec : ℕ) (q : ℚ) : String :=
  let n : ℤ := round (q * (10 : ℚ) ^ prec)
  let sign := if n < 0 then "-" else ""
  let a := n.natAbs
  if prec = 0 then sign ++ Nat.repr a
  else sign ++ Nat.repr (a / 10 ^ prec) ++ "." ++ padZeros (Nat.repr (a % 10 ^ prec)) prec

/-- Python dash-repetition (the dash rule of length `n` printed under a
headline). -/
def dashRule (n : ℕ) : String :=
  String.mk (List.replicate n '-')

/-- One table row (src/volatility.py:140): the threshold magnitude times
100 in a width-8 2-decimal field on both sides, the two hit counts in
width-4 integer fields. -/
def rowFormat (threshold : ℚ) (hh lh : ℕ) : String :=
  "+" ++ padSpaces (fmtFixed 2 (threshold * 100)) 8 ++ "% | " ++
    padSpaces (Nat.repr hh) 4 ++ " | -" ++
    padSpaces (fmtFixed 2 (threshold * 100)) 8 ++ "% | " ++
    padSpaces (Nat.repr lh) 4 ++ "\n"

/-- Table-building loop of `print_summary` (src/volatility.py:137-140):
look both hit counts up (a missing key is a `KeyError`, as in Python) and
append a row exactly when either count is positive. -/
def buildTable (high low : List (ℚ × ℕ)) : List ℚ → Except PyError String
  | [] => .ok ""
  | t :: ts => do
    let hh ← dictGet high t
    let lh ← dictGet low t
    let rest ← buildTable high low ts
    .ok ((if hh > 0 ∨ lh > 0 then rowFormat t hh lh else "") ++ rest)

/-- Headline text (src/volatility.py:134). -/
def headline_text (v : Volatility) : String :=
  v.symbol ++ " volatility information"

/-- Output of the first `print` statement (src/volatility.py:135): the
headline, its dash rule, and the blank line (`print` appends a newline to
the embedded trailing one). -/
def headlineOut (v : Volatility) : String :=
  headline_text v ++ "\n" ++ dashRule (headline_text v).length ++ "\n" ++ "\n"

/-- Output of the price-statistics `print` (src/volatility.py:136):
min/max/avg in the Python default 6-decimal float format and the change
percentage with 2 decimals, followed by the blank line. -/
def priceOut (v : Volatility) (change_pct : ℚ) : String :=
  "Price: min: " ++ fmtFixed 6 v.min_close ++ ", max " ++ fmtFixed 6 v.max_close ++
    ", avg: " ++ fmtFixed 6 v.avg_close ++ ", change: " ++ fmtFixed 2 change_pct ++
    "%" ++ "\n" ++ "\n"

/-- Header line of the threshold table (src/volatility.py:143). -/
def header_text : String :=
  "+THRESHOLD | HITS | -THRESHOLD | HITS"

/-- Model of `Volatility.print_summary` (src/volatility.py:130-145),
returning the text written to standard output.  The change percentage is
computed first (so a zero `min_close` raises `ZeroDivisionError` before
anything is printed), then the headline and price lines, then the table,
whose header and dash rule appear only when the table string is
non-empty. -/
def print_summary (v : Volatility) : Except PyError String := do
  let q ← pyDiv v.max_close v.min_close
  let change_pct := q * 100 - 100
  let table ← buildTable v.high_hits v.low_hits v.thresholds
  .ok (headlineOut v ++ priceOut v change_pct ++
    (if table = "" then ""
     else header_text ++ "\n" ++ dashRule header_text.length ++ "\n" ++ table ++ "\n"))

/-- Test helper: a bar whose close is `c` (every other field zeroed);
only the close price enters the volatility computation. -/
def mkKline (c : ℚ) : Kline :=
  { open_time := .int 0, open_price := 0, high := 0, low := 0, close := c,
    volume := 0, close_time := .int 0, quote_asset_volume := 0,
    trades := .int 0, taker_base_volume := 0, taker_quote_volume := 0 }

/-- Concatenation of a list of strings, used on the specification side to
state what the table-building loop accumulates. -/
def strJoin : List String → String
  | [] => ""
  | s :: rest => s ++ strJoin rest

/-- Test helper: a concrete summary with min 100, max 150 and every hit
count zero (the shape `from_klines` produces for a flat price series). -/
def sampleSummary : Volatility :=
  { symbol := "BTCUSDT", interval := "1m", thresholds := volatility_thresholds,
    min_close := 100, max_close := 150, avg_close := 120,
    high_hits := volatility_thresholds.map fun t => (t, 0),
    low_hits := volatility_thresholds.map fun t => (t, 0) }

instance instDecidableEqExcept {e a : Type} [DecidableEq e] [DecidableEq a] :
    DecidableEq (Except e a)
  | .error x, .error y => decidable_of_iff (x = y) (by simp)
  | .error _, .ok _ => isFalse (by simp)
  | .ok _, .error _ => isFalse (by simp)
  | .ok x, .ok y => decidable_of_iff (x = y) (by simp)

/-! ## Helper lemmas -/

theorem bindOk {α β : Type} {e : Type} (a : α) (f : α → Except e β) :
    (Except.ok a >>= f) = f a := rfl

theorem bindErr {α β : Type} {e : Type} (x : e) (f : α → Except e β) :
    (Except.error x >>= f) = Except.error x := rfl

/-- Unrolling the hit-counting loop: the final count is the initial count
plus the number of positions whose bar qualifies while the previous bar
(as recorded by the incoming flag at the head) does not. -/
theorem hitsLoop_eq (q : ℚ → Bool) (l : List Kline) : ∀ (count : ℕ) (flag : Bool),
    hitsLoop q count flag l =
      count + (((flag :: l.map fun k => q k.close).zip (l.map fun k => q k.close)).filter
        (fun pc => pc.2 && !pc.1)).length := by
  induction l with
  | nil => intro count flag; simp [hitsLoop]
  | cons k ks ih =>
    intro count flag
    by_cases hq : q k.close
    · cases flag
      all_goals
        simp [hitsLoop, hq, ih]
        try omega
    · simp only [Bool.not_eq_true] at hq
      cases flag
      all_goals simp [hitsLoop, hq, ih]

/-- The hit counter agrees with the run-start count for the comparison
predicate the code selects. -/
theorem hits_over_threshold_eq_spec (avg_close threshold : ℚ) (klines : List Kline) :
    hits_over_threshold avg_close threshold klines =
      specRunCount
        (fun c =>
          if threshold > 0 then decide (c > avg_close * (1 + threshold))
          else decide (c < avg_close * (1 + threshold)))
        (klines.map Kline.close) := by
  unfold hits_over_threshold specRunCount
  rw [hitsLoop_eq]
  by_cases ht : threshold > 0
  all_goals simp [ht, List.map_map, Function.comp_def]

/-- Evaluation of `from_klines` on a non-empty sequence: `min`, `max` and
the division all succeed and the record is populated as in the source. -/
theorem from_klines_cons (s i : String) (k : Kline) (ks : List Kline) :
    from_klines s i (k :: ks) = .ok
      { symbol := s, interval := i, thresholds := volatility_thresholds,
        min_close := (ks.map Kline.close).foldl min k.close,
        max_close := (ks.map Kline.close).foldl max k.close,
        avg_close := ((k :: ks).map Kline.close).sum /
          (((k :: ks).map Kline.close).length : ℚ),
        high_hits := volatility_thresholds.map fun t =>
          (t, hits_over_threshold
            (((k :: ks).map Kline.close).sum / (((k :: ks).map Kline.close).length : ℚ))
            t (k :: ks)),
        low_hits := volatility_thresholds.map fun t =>
          (t, hits_over_threshold
            (((k :: ks).map Kline.close).sum / (((k :: ks).map Kline.close).length : ℚ))
            (-t) (k :: ks)) } := by
  have hlen : ((ks.length : ℚ) + 1) ≠ 0 := by positivity
  simp [from_klines, pyMin, pyMax, pyDiv, bindOk, hlen]

/-- A left fold with `min` is a lower bound for the seed and every element. -/
theorem foldl_min_le (a : ℚ) (l : List ℚ) : ∀ y ∈ a :: l, l.foldl min a ≤ y := by
  induction l generalizing a with
  | nil =>
    intro y hy
    simp only [List.mem_singleton] at hy
    simp [hy]
  | cons b l' ih =>
    intro y hy
    simp only [List.foldl_cons]
    rcases List.mem_cons.mp hy with rfl | hy'
    · exact le_trans (ih (min y b) (min y b) (List.mem_cons_self _ _)) (min_le_left _ _)
    · rcases List.mem_cons.mp hy' with rfl | hy''
      · exact le_trans (ih (min a y) (min a y) (List.mem_cons_self _ _)) (min_le_right _ _)
      · exact ih (min a b) y (List.mem_cons_of_mem _ hy'')

/-- A left fold with `max` is an upper bound for the seed and every element. -/
theorem le_foldl_max (a : ℚ) (l : List ℚ) : ∀ y ∈ a :: l, y ≤ l.foldl max a := by
  induction l generalizing a with
  | nil =>
    intro y hy
    simp only [List.mem_singleton] at hy
    simp [hy]
  | cons b l' ih =>
    intro y hy
    simp only [List.foldl_cons]
    rcases List.mem_cons.mp hy with rfl | hy'
    · exact le_trans (le_max_left _ _) (ih (max y b) (max y b) (List.mem_cons_self _ _))
    · rcases List.mem_cons.mp hy' with rfl | hy''
      · exact le_trans (le_max_right _ _) (ih (max a y) (max a y) (List.mem_cons_self _ _))
      · exact ih (max a b) y (List.mem_cons_of_mem _ hy'')

/-- The fold with `min` lands on the seed or one of the elements. -/
theorem foldl_min_mem (a : ℚ) (l : List ℚ) : l.foldl min a ∈ a :: l := by
  induction l generalizing a with
  | nil => simp
  | cons b l' ih =>
    simp only [List.foldl_cons]
    rcases List.mem_cons.mp (ih (min a b)) with h' | h'
    · rcases min_choice a b with hm | hm
      · rw [h', hm]; exact List.mem_cons_self _ _
      · rw [h', hm]; exact List.mem_cons_of_mem _ (List.mem_cons_self _ _)
    · exact List.mem_cons_of_mem _ (List.mem_cons_of_mem _ h')

/-- The fold with `max` lands on the seed or one of the elements. -/
theorem foldl_max_mem (a : ℚ) (l : List ℚ) : l.foldl max a ∈ a :: l := by
  induction l generalizing a with
  | nil => simp
  | cons b l' ih =>
    simp only [List.foldl_cons]
    rcases List.mem_cons.mp (ih (max a b)) with h' | h'
    · rcases max_choice a b with hm | hm
      · rw [h', hm]; exact List.mem_cons_self _ _
      · rw [h', hm]; exact List.mem_cons_of_mem _ (List.mem_cons_self _ _)
    · exact List.mem_cons_of_mem _ (List.mem_cons_of_mem _ h')

/-- A lower bound of all elements of a non-empty list bounds its mean. -/
theorem le_mean_of_forall_le (m : ℚ) (l : List ℚ) (hne : l ≠ [])
    (h : ∀ y ∈ l, m ≤ y) : m ≤ l.sum / (l.length : ℚ) := by
  have hlen : (0 : ℚ) < (l.length : ℚ) := by
    exact_mod_cast List.length_pos.mpr hne
  rw [le_div_iff₀ hlen]
  have hs := List.card_nsmul_le_sum l m h
  rw [nsmul_eq_mul] at hs
  linarith

/-- An upper bound of all elements of a non-empty list bounds its mean. -/
theorem mean_le_of_forall_le (M : ℚ) (l : List ℚ) (hne : l ≠ [])
    (h : ∀ y ∈ l, y ≤ M) : l.sum / (l.length : ℚ) ≤ M := by
  have hlen : (0 : ℚ) < (l.length : ℚ) := by
    exact_mod_cast List.length_pos.mpr hne
  rw [div_le_iff₀ hlen]
  have hs := List.sum_le_card_nsmul l M h
  rw [nsmul_eq_mul] at hs
  linarith

/-- Looking a present key up in a dict built by the comprehension pattern
`l.map (fun t => (t, f t))` yields `f` at that key. -/
theorem dictGet_map_self (f : ℚ → ℕ) (l : List ℚ) (t : ℚ) (ht : t ∈ l) :
    dictGet (l.map fun x => (x, f x)) t = .ok (f t) := by
  induction l with
  | nil => cases ht
  | cons a l' ih =>
    by_cases hat : a = t
    · subst hat
      simp [dictGet]
    · rcases List.mem_cons.mp ht with rfl | ht'
      · exact absurd rfl hat
      · simp only [List.map_cons, dictGet, hat, if_false]
        exact ih ht'

/-! ## Claim theorems -/

/-- C1: for every average close price, every signed threshold and every
candlestick sequence, `hits_over_threshold` returns the number of distinct
maximal contiguous runs of bars whose close qualifies (strictly greater
than `avg_close * (1 + threshold)` when the signed threshold is positive,
strictly less when it is negative), counting each run once regardless of
its length; in particular a sequence qualifying for 5 consecutive bars,
then failing to qualify, then qualifying for 3 consecutive bars yields 2. -/
theorem hits_over_threshold_counts_excursions :
    (∀ (avg_close threshold : ℚ) (klines : List Kline),
      hits_over_threshold avg_close threshold klines =
        specRunCount
          (fun c =>
            if threshold > 0 then decide (c > avg_close * (1 + threshold))
            else decide (c < avg_close * (1 + threshold)))
          (klines.map Kline.close)) ∧
    hits_over_threshold 100 (1 / 10)
      (([111, 112, 113, 114, 115, 100, 111, 112, 113] : List ℚ).map mkKline) = 2 := by
  constructor
  · exact hits_over_threshold_eq_spec
  · with_unfolding_all decide

/-- C5 counterexample: constructing a summary from the empty candlestick
sequence does fail, but with the ValueError raised by `min` over the empty
close list — not with the ZeroDivisionError the claim names, since `min` is
evaluated before the division for the mean is ever reached. -/
theorem from_klines_empty_not_zero_division :
    from_klines "BTCUSDT" "1m" [] = .error .valueError ∧
      (Except.error PyError.valueError : Except PyError Volatility) ≠
        .error .zeroDivisionError := by
  refine ⟨rfl, ?_⟩
  with_unfolding_all decide

/-- C5 amended: building a summary from an empty candlestick sequence fails
with an unguarded error, namely the ValueError raised when taking the
minimum of the empty close-price list — reached before the division by
zero for the mean; no recovery path exists. -/
theorem from_klines_empty_value_error (s i : String) :
    from_klines s i [] = .error .valueError := rfl

/-- C7: parsing a raw record whose element count is not exactly 12 fails
with the malformed-input `ValueError` of the Python tuple unpacking, rather
than truncating or padding. -/
theorem kline_parse_wrong_arity (values : List PyVal) (h : values.length ≠ 12) :
    Kline.parse values = .error .valueError := by
  rcases values with _ | ⟨a1, _ | ⟨a2, _ | ⟨a3, _ | ⟨a4, _ | ⟨a5, _ | ⟨a6, _ | ⟨a7,
    _ | ⟨a8, _ | ⟨a9, _ | ⟨a10, _ | ⟨a11, _ | ⟨a12, _ | ⟨a13, rest⟩⟩⟩⟩⟩⟩⟩⟩⟩⟩⟩⟩⟩
  all_goals first
    | rfl
    | exact absurd rfl h

/-- C7 witness: the empty record has the wrong arity and is rejected. -/
theorem kline_parse_wrong_arity_witness :
    ([] : List PyVal).length ≠ 12 ∧ Kline.parse [] = .error .valueError :=
  ⟨by decide, kline_parse_wrong_arity [] (by decide)⟩

/-- C2: for every non-empty candlestick sequence the resulting summary field `min_close`
is the minimum of the close prices, `max_close` their maximum, and
`avg_close` their sum divided by their count; in particular closes
1, 2, 3, 4, 5 give minimum 1, maximum 5 and mean 3. -/
theorem from_klines_min_max_avg :
    (∀ (s i : String) (klines : List Kline), klines ≠ [] →
      ∃ v, from_klines s i klines = .ok v ∧
        v.min_close ∈ klines.map Kline.close ∧
        (∀ c ∈ klines.map Kline.close, v.min_close ≤ c) ∧
        v.max_close ∈ klines.map Kline.close ∧
        (∀ c ∈ klines.map Kline.close, c ≤ v.max_close) ∧
        v.avg_close =
          (klines.map Kline.close).sum / ((klines.map Kline.close).length : ℚ)) ∧
    (from_klines "S" "1m" (([1, 2, 3, 4, 5] : List ℚ).map mkKline)).map
      Volatility.min_close = .ok 1 ∧
    (from_klines "S" "1m" (([1, 2, 3, 4, 5] : List ℚ).map mkKline)).map
      Volatility.max_close = .ok 5 ∧
    (from_klines "S" "1m" (([1, 2, 3, 4, 5] : List ℚ).map mkKline)).map
      Volatility.avg_close = .ok 3 := by
  refine ⟨?_, ?_, ?_, ?_⟩
  · intro s i klines hne
    obtain ⟨k, ks, rfl⟩ := List.exists_cons_of_ne_nil hne
    refine ⟨_, from_klines_cons s i k ks, ?_, ?_, ?_, ?_, rfl⟩
    · simpa using foldl_min_mem k.close (ks.map Kline.close)
    · intro c hc
      simp only [List.map_cons] at hc
      exact foldl_min_le k.close (ks.map Kline.close) c hc
    · simpa using foldl_max_mem k.close (ks.map Kline.close)
    · intro c hc
      simp only [List.map_cons] at hc
      exact le_foldl_max k.close (ks.map Kline.close) c hc
  · with_unfolding_all decide
  · with_unfolding_all decide
  · with_unfolding_all decide

/-- C2 witness: the general statement applied to the five-bar example. -/
theorem from_klines_min_max_avg_witness :
    ∃ v, from_klines "S" "1m" (([1, 2, 3, 4, 5] : List ℚ).map mkKline) = .ok v ∧
      v.min_close ∈ (([1, 2, 3, 4, 5] : List ℚ).map mkKline).map Kline.close ∧
      (∀ c ∈ (([1, 2, 3, 4, 5] : List ℚ).map mkKline).map Kline.close,
        v.min_close ≤ c) ∧
      v.max_close ∈ (([1, 2, 3, 4, 5] : List ℚ).map mkKline).map Kline.close ∧
      (∀ c ∈ (([1, 2, 3, 4, 5] : List ℚ).map mkKline).map Kline.close,
        c ≤ v.max_close) ∧
      v.avg_close =
        ((([1, 2, 3, 4, 5] : List ℚ).map mkKline).map Kline.close).sum /
          (((([1, 2, 3, 4, 5] : List ℚ).map mkKline).map Kline.close).length : ℚ) :=
  from_klines_min_max_avg.1 "S" "1m" _ (by simp)

/-- C3: for every non-empty candlestick sequence, the `high_hits` and
`low_hits` mappings have exactly the 12 ladder values as their keys, in
ladder order and without duplicates, regardless of the input data, and
every ladder threshold is present as a key (so lookups never fail even when
both of its counts are zero). -/
theorem from_klines_hit_keys (s i : String) (klines : List Kline)
    (hne : klines ≠ []) :
    ∃ v, from_klines s i klines = .ok v ∧
      v.high_hits.map Prod.fst = volatility_thresholds ∧
      v.low_hits.map Prod.fst = volatility_thresholds ∧
      volatility_thresholds =
        [0.30, 0.25, 0.20, 0.15, 0.10, 0.05, 0.04, 0.03, 0.02, 0.01, 0.005, 0.0025] ∧
      volatility_thresholds.Nodup ∧
      (∀ t ∈ volatility_thresholds,
        (∃ n, dictGet v.high_hits t = .ok n) ∧ ∃ n, dictGet v.low_hits t = .ok n) := by
  obtain ⟨k, ks, rfl⟩ := List.exists_cons_of_ne_nil hne
  refine ⟨_, from_klines_cons s i k ks, ?_, ?_, rfl, ?_, ?_⟩
  · simp [List.map_map, Function.comp_def]
  · simp [List.map_map, Function.comp_def]
  · with_unfolding_all decide
  · intro t ht
    exact ⟨⟨_, dictGet_map_self _ _ t ht⟩, ⟨_, dictGet_map_self _ _ t ht⟩⟩

/-- C3 witness: the key invariant at a concrete one-bar input. -/
theorem from_klines_hit_keys_witness :
    ∃ v, from_klines "S" "1m" [mkKline 7] = .ok v ∧
      v.high_hits.map Prod.fst = volatility_thresholds ∧
      v.low_hits.map Prod.fst = volatility_thresholds ∧
      volatility_thresholds =
        [0.30, 0.25, 0.20, 0.15, 0.10, 0.05, 0.04, 0.03, 0.02, 0.01, 0.005, 0.0025] ∧
      volatility_thresholds.Nodup ∧
      (∀ t ∈ volatility_thresholds,
        (∃ n, dictGet v.high_hits t = .ok n) ∧ ∃ n, dictGet v.low_hits t = .ok n) :=
  from_klines_hit_keys "S" "1m" [mkKline 7] (by simp)

/-- C10: for every non-empty candlestick sequence, the average close of the summary lies between its minimum and maximum close. -/
theorem min_le_avg_le_max (s i : String) (klines : List Kline) (hne : klines ≠ [])
    (v : Volatility) (hv : from_klines s i klines = .ok v) :
    v.min_close ≤ v.avg_close ∧ v.avg_close ≤ v.max_close := by
  obtain ⟨k, ks, rfl⟩ := List.exists_cons_of_ne_nil hne
  rw [from_klines_cons] at hv
  obtain rfl := Except.ok.inj hv
  constructor
  · apply le_mean_of_forall_le _ _ (by simp)
    intro y hy
    simp only [List.map_cons] at hy
    exact foldl_min_le k.close (ks.map Kline.close) y hy
  · apply mean_le_of_forall_le _ _ (by simp)
    intro y hy
    simp only [List.map_cons] at hy
    exact le_foldl_max k.close (ks.map Kline.close) y hy

/-- C10 witness: the bound at a concrete two-bar input. -/
theorem min_le_avg_le_max_witness :
    ∃ v, from_klines "S" "1m" [mkKline 1, mkKline 2] = .ok v ∧
      v.min_close ≤ v.avg_close ∧ v.avg_close ≤ v.max_close :=
  ⟨_, from_klines_cons "S" "1m" (mkKline 1) [mkKline 2],
    min_le_avg_le_max "S" "1m" [mkKline 1, mkKline 2] (by simp) _
      (from_klines_cons "S" "1m" (mkKline 1) [mkKline 2])⟩

/-- C8 counterexample: a single bar whose close is the negative value -1
gives min = max = avg = -1, yet the 0.30 threshold records one upward hit
(the threshold line -1.3 lies strictly below the close), so the claim's
"every threshold yields a hit count of 0" fails on this one-element
sequence. -/
theorem single_negative_close_counts_hit :
    ∃ v, from_klines "S" "1m" [mkKline (-1)] = .ok v ∧
      v.min_close = v.max_close ∧ v.max_close = v.avg_close ∧
      dictGet v.high_hits 0.30 = .ok 1 ∧ (1 : ℕ) ≠ 0 := by
  refine ⟨_, from_klines_cons "S" "1m" (mkKline (-1)) [], ?_, ?_, ?_, by decide⟩
  · rfl
  · with_unfolding_all decide
  · with_unfolding_all decide

/-- C8 amended: for every single-element candlestick sequence whose close
is nonnegative (as every real price is), the summary has
min = max = avg = the close, and every ladder threshold yields a hit count
of 0 in both mappings — no crossing is ever counted.  (The nonnegativity
hypothesis is forced: a negative close makes the bar qualify against every
threshold, see the counterexample.) -/
theorem single_kline_no_hits (s i : String) (k : Kline) (hc : 0 ≤ k.close) :
    ∃ v, from_klines s i [k] = .ok v ∧
      v.min_close = k.close ∧ v.max_close = k.close ∧ v.avg_close = k.close ∧
      ∀ t ∈ volatility_thresholds,
        dictGet v.high_hits t = .ok 0 ∧ dictGet v.low_hits t = .ok 0 := by
  have havg : (([k].map Kline.close).sum / (([k].map Kline.close).length : ℚ)) =
      k.close := by
    simp
  have hhits : ∀ u : ℚ, hits_over_threshold k.close u [k] = 0 := by
    intro u
    by_cases hu : u > 0
    · have h1 : ¬(k.close > k.close * (1 + u)) := by nlinarith
      simp [hits_over_threshold, hitsLoop, hu, h1]
    · have h1 : ¬(k.close < k.close * (1 + u)) := by
        push_neg at hu
        nlinarith
      simp [hits_over_threshold, hitsLoop, hu, h1]
  refine ⟨_, from_klines_cons s i k [], rfl, rfl, havg, ?_⟩
  intro t ht
  constructor
  · simp only [havg, hhits]
    exact dictGet_map_self (fun _ => 0) volatility_thresholds t ht
  · simp only [havg, hhits]
    exact dictGet_map_self (fun _ => 0) volatility_thresholds t ht

/-- C8 witness: the amended statement at a concrete bar with close 5. -/
theorem single_kline_no_hits_witness :
    (0 : ℚ) ≤ (mkKline 5).close ∧
    ∃ v, from_klines "S" "1m" [mkKline 5] = .ok v ∧
      v.min_close = (mkKline 5).close ∧ v.max_close = (mkKline 5).close ∧
      v.avg_close = (mkKline 5).close ∧
      ∀ t ∈ volatility_thresholds,
        dictGet v.high_hits t = .ok 0 ∧ dictGet v.low_hits t = .ok 0 :=
  ⟨by with_unfolding_all decide,
    single_kline_no_hits "S" "1m" (mkKline 5) (by with_unfolding_all decide)⟩

/-- C6: parsing a wire-format 12-element record (integer timestamps and
trade count, numeric strings for the eight prices and volumes, an ignored
12th field) succeeds and converts every numeric field at construction
time: the eight price/volume fields become the parsed rational values and
`open_time`, `close_time` and `trades` remain in integer form — no field
of the constructed candlestick carries a raw string. -/
theorem kline_parse_converts_fields
    (t0 t6 n8 : ℤ) (s1 s2 s3 s4 s5 s7 s9 s10 : String) (v11 : PyVal)
    (q1 q2 q3 q4 q5 q7 q9 q10 : ℚ)
    (h1 : parseDecimal s1 = some q1) (h2 : parseDecimal s2 = some q2)
    (h3 : parseDecimal s3 = some q3) (h4 : parseDecimal s4 = some q4)
    (h5 : parseDecimal s5 = some q5) (h7 : parseDecimal s7 = some q7)
    (h9 : parseDecimal s9 = some q9) (h10 : parseDecimal s10 = some q10) :
    Kline.parse [.int t0, .str s1, .str s2, .str s3, .str s4, .str s5,
        .int t6, .str s7, .int n8, .str s9, .str s10, v11] =
      .ok { open_time := .int t0, open_price := q1, high := q2, low := q3,
            close := q4, volume := q5, close_time := .int t6,
            quote_asset_volume := q7, trades := .int n8,
            taker_base_volume := q9, taker_quote_volume := q10 } := by
  simp [Kline.parse, pyFloat, h1, h2, h3, h4, h5, h7, h9, h10, bindOk]

set_option maxRecDepth 2000 in
/-- C6 witness: a concrete wire-format record (timestamps and trade count
as integers, prices and volumes as decimal strings). -/
theorem kline_parse_converts_fields_witness :
    Kline.parse [.int 1499040000000, .str "0.016", .str "0.8",
        .str "0.015", .str "0.75", .str "1.5",
        .int 1499644799999, .str "2.19", .int 308,
        .str "7.8", .str "8.4", .str "9.6"] =
      .ok { open_time := .int 1499040000000, open_price := 0.016,
            high := 0.8, low := 0.015, close := 0.75,
            volume := 1.5, close_time := .int 1499644799999,
            quote_asset_volume := 2.19, trades := .int 308,
            taker_base_volume := 7.8, taker_quote_volume := 8.4 } :=
  kline_parse_converts_fields 1499040000000 1499644799999 308
    "0.016" "0.8" "0.015" "0.75" "1.5"
    "2.19" "7.8" "8.4" (.str "9.6")
    0.016 0.8 0.015 0.75 1.5 2.19 7.8 8.4
    (by with_unfolding_all decide) (by with_unfolding_all decide)
    (by with_unfolding_all decide) (by with_unfolding_all decide)
    (by with_unfolding_all decide) (by with_unfolding_all decide)
    (by with_unfolding_all decide) (by with_unfolding_all decide)

/-- C9: for every summary with nonzero `min_close`, the price-statistics
line renders the change percentage as `(max_close / min_close) * 100 - 100`
formatted to exactly 2 decimal places; in particular min 100 and max 150
render the change as 50.00. -/
theorem change_pct_two_decimals (v : Volatility) (hmin : v.min_close ≠ 0) :
    (∃ cp, pyDiv v.max_close v.min_close = .ok cp ∧
      priceOut v (cp * 100 - 100) =
        "Price: min: " ++ fmtFixed 6 v.min_close ++ ", max " ++
          fmtFixed 6 v.max_close ++ ", avg: " ++ fmtFixed 6 v.avg_close ++
          ", change: " ++ fmtFixed 2 ((v.max_close / v.min_close) * 100 - 100) ++
          "%" ++ "\n" ++ "\n") ∧
    (v.min_close = 100 → v.max_close = 150 →
      fmtFixed 2 ((v.max_close / v.min_close) * 100 - 100) = "50.00") := by
  constructor
  · exact ⟨_, by simp [pyDiv, hmin], rfl⟩
  · intro h1 h2
    rw [h1, h2]
    with_unfolding_all decide

/-- Evaluation of the table loop when both dictionaries answer every
requested key: the result is the concatenation of the rows of exactly
those thresholds with a positive count on either side. -/
theorem buildTable_eval (H L : ℚ → ℕ) (d e : List (ℚ × ℕ)) (ts : List ℚ)
    (hd : ∀ t ∈ ts, dictGet d t = .ok (H t))
    (he : ∀ t ∈ ts, dictGet e t = .ok (L t)) :
    buildTable d e ts = .ok (strJoin ((ts.filter fun t => 0 < H t ∨ 0 < L t).map
      fun t => rowFormat t (H t) (L t))) := by
  induction ts with
  | nil => simp [buildTable, strJoin]
  | cons a ts ih =>
    have hda := hd a (List.mem_cons_self _ _)
    have hea := he a (List.mem_cons_self _ _)
    have ih' := ih (fun t ht => hd t (List.mem_cons_of_mem _ ht))
      (fun t ht => he t (List.mem_cons_of_mem _ ht))
    by_cases hc : 0 < H a ∨ 0 < L a
    · simp [buildTable, hda, hea, ih', bindOk, List.filter_cons, hc, strJoin]
    · simp [buildTable, hda, hea, ih', bindOk, List.filter_cons, hc, strJoin]

/-- A rendered table row is never the empty string (it starts with a
plus sign). -/
theorem rowFormat_length_pos (t : ℚ) (hh lh : ℕ) :
    0 < (rowFormat t hh lh).length := by
  have h1 : ("\n" : String).length = 1 := by decide
  unfold rowFormat
  rw [String.length_append, h1]
  omega

/-- The accumulated table string is empty exactly when no threshold
passed the filter. -/
theorem strJoin_rows_empty_iff (ts : List ℚ) (H L : ℚ → ℕ) :
    strJoin (ts.map fun t => rowFormat t (H t) (L t)) = "" ↔ ts = [] := by
  cases ts with
  | nil => simp [strJoin]
  | cons a ts' =>
    simp only [List.map_cons, strJoin]
    constructor
    · intro h
      exfalso
      have hl := congrArg String.length h
      rw [String.length_append] at hl
      have hrow := rowFormat_length_pos a (H a) (L a)
      simp at hl
      omega
    · intro h
      exact absurd h (List.cons_ne_nil _ _)

/-- C4: for every volatility summary (its hit dictionaries keyed by its
threshold list, as `from_klines` always produces, and a nonzero
`min_close`), the rendered report contains a table row for a threshold
exactly when its high or low hit count is positive, and when every
threshold has zero hits on both sides the output is only the headline
block and the price-statistics block — no table header and no rows. -/
theorem print_summary_row_inclusion (v : Volatility) (H L : ℚ → ℕ)
    (hhigh : v.high_hits = v.thresholds.map fun t => (t, H t))
    (hlow : v.low_hits = v.thresholds.map fun t => (t, L t))
    (hmin : v.min_close ≠ 0) :
    ∃ out, print_summary v = .ok out ∧
      out = headlineOut v ++ priceOut v ((v.max_close / v.min_close) * 100 - 100) ++
        (if (v.thresholds.filter fun t => 0 < H t ∨ 0 < L t) = [] then ""
         else header_text ++ "\n" ++ dashRule header_text.length ++ "\n" ++
           strJoin (((v.thresholds.filter fun t => 0 < H t ∨ 0 < L t)).map
             fun t => rowFormat t (H t) (L t)) ++ "\n") ∧
      ((∀ t ∈ v.thresholds, H t = 0 ∧ L t = 0) →
        out = headlineOut v ++
          priceOut v ((v.max_close / v.min_close) * 100 - 100)) := by
  have htab : buildTable v.high_hits v.low_hits v.thresholds =
      .ok (strJoin ((v.thresholds.filter fun t => 0 < H t ∨ 0 < L t).map
        fun t => rowFormat t (H t) (L t))) := by
    apply buildTable_eval
    · intro t ht
      rw [hhigh]
      exact dictGet_map_self H _ t ht
    · intro t ht
      rw [hlow]
      exact dictGet_map_self L _ t ht
  have hiff : (strJoin ((v.thresholds.filter fun t => 0 < H t ∨ 0 < L t).map
      fun t => rowFormat t (H t) (L t)) = "") ↔
      ((v.thresholds.filter fun t => 0 < H t ∨ 0 < L t) = []) :=
    strJoin_rows_empty_iff _ H L
  have hps : print_summary v = .ok (headlineOut v ++
      priceOut v ((v.max_close / v.min_close) * 100 - 100) ++
      (if strJoin ((v.thresholds.filter fun t => 0 < H t ∨ 0 < L t).map
          fun t => rowFormat t (H t) (L t)) = "" then ""
       else header_text ++ "\n" ++ dashRule header_text.length ++ "\n" ++
         strJoin ((v.thresholds.filter fun t => 0 < H t ∨ 0 < L t).map
           fun t => rowFormat t (H t) (L t)) ++ "\n")) := by
    simp [print_summary, pyDiv, hmin, bindOk, htab]
  refine ⟨_, hps, if_congr hiff rfl rfl ▸ rfl, ?_⟩
  intro hz
  have hfil : (v.thresholds.filter fun t => 0 < H t ∨ 0 < L t) = [] := by
    apply List.filter_eq_nil_iff.mpr
    intro a ha
    simp [(hz a ha).1, (hz a ha).2]
  rw [if_pos (hiff.mpr hfil), String.append_empty]

/-- C4 witness: a concrete summary with every hit count zero renders as
only the headline and price blocks. -/
theorem print_summary_row_inclusion_witness :
    sampleSummary.min_close ≠ 0 ∧
    ∃ out, print_summary sampleSummary = .ok out ∧
      out = headlineOut sampleSummary ++
        priceOut sampleSummary
          ((sampleSummary.max_close / sampleSummary.min_close) * 100 - 100) := by
  have hmin : sampleSummary.min_close ≠ 0 := by with_unfolding_all decide
  obtain ⟨out, h1, _h2, h3⟩ :=
    print_summary_row_inclusion sampleSummary (fun _ => 0) (fun _ => 0) rfl rfl hmin
  exact ⟨hmin, out, h1, h3 (fun t _ => ⟨rfl, rfl⟩)⟩

/-- C9 witness: the rendering at the concrete summary with min 100 and
max 150. -/
theorem change_pct_two_decimals_witness :
    sampleSummary.min_close ≠ 0 ∧
    fmtFixed 2 ((sampleSummary.max_close / sampleSummary.min_close) * 100 - 100) =
      "50.00" :=
  ⟨by with_unfolding_all decide,
    (change_pct_two_decimals sampleSummary (by with_unfolding_all decide)).2 rfl rfl⟩

end Cryptotools
